import Mathlib

/-!
Verification development for the piosphere/piteria repository.

The repository is a local deployment-control agent: a server owning a
database of deployments and a client speaking to it over a unix socket
with a custom length-prefixed binary protocol.  This file is a shallow
embedding of the components the specification's claims are about:

* the wire protocol (fixed-width little-endian length header, bincode
  envelope `{tag, body}`) from `piosphere/src/socket.rs`;
* the message catalog from `piosphere/src/socket/message.rs`;
* server-side reading and the session loop from
  `piteria/src/socket/server.rs`;
* service dispatch from `piteria/src/lib.rs` and `piosphere/src/lib.rs`;
* the client facade and client session from
  `piosphere/src/socket/client.rs`;
* the server runtime registry bookkeeping from
  `piteria/src/socket/server.rs`;
* the transactional insert from `piosphere/src/db.rs`.

Rust `String` values are modelled as their UTF-8 byte sequences
(`List Nat`, each element `< 256`); machine integers are modelled as
`Nat` with explicit `% 2 ^ 64` where wrap-around matters.
-/

/-! ## Bytes and little-endian integers

`usize::to_le_bytes` / `usize::from_le_bytes` on a 64-bit target, and the
fixed-integer little-endian encoding used by `bincode::serialize`
(bincode 1.x legacy options: little endian, fixed-width ints, `u64`
lengths, `u32` enum variant indices, trailing bytes allowed on
deserialize). -/

/-- Little-endian byte decomposition of `n` into `w` bytes
(`n.to_le_bytes` truncated to the low `w` bytes). -/
def natToLeBytes : Nat → Nat → List Nat
  | 0, _ => []
  | w + 1, n => n % 256 :: natToLeBytes w (n / 256)

/-- Little-endian reassembly of a byte list (`from_le_bytes`). -/
def leBytesToNat : List Nat → Nat
  | [] => 0
  | b :: bs => b + 256 * leBytesToNat bs

theorem natToLeBytes_length (w n : Nat) : (natToLeBytes w n).length = w := by
  induction w generalizing n with
  | zero => rfl
  | succ w ih => simp [natToLeBytes, ih]

theorem leBytesToNat_natToLeBytes (w n : Nat) :
    leBytesToNat (natToLeBytes w n) = n % 256 ^ w := by
  induction w generalizing n with
  | zero => simp [natToLeBytes, leBytesToNat, Nat.mod_one]
  | succ w ih =>
      simp only [natToLeBytes, leBytesToNat, ih]
      rw [pow_succ, Nat.mul_comm (256 ^ w) 256, Nat.mod_mul]

theorem leBytesToNat_natToLeBytes_of_lt {w n : Nat} (h : n < 256 ^ w) :
    leBytesToNat (natToLeBytes w n) = n := by
  rw [leBytesToNat_natToLeBytes, Nat.mod_eq_of_lt h]

/-! ## Frame header

`piosphere/src/socket.rs` (`impl Header for PiosphereHeader`) and the
structurally identical `Header` in `piteria/src/socket.rs`:
`HEADER_SIZE = size_of::<usize>() = 8` on the 64-bit target, and the
header is `usize` ↔ little-endian bytes. -/

def HEADER_SIZE : Nat := 8

/-- Corresponds to `Header::create(size) = size.to_le_bytes()`. -/
def Header.create (size : Nat) : List Nat := natToLeBytes HEADER_SIZE size

/-- Corresponds to `Header::size(bytes) = usize::from_le_bytes(bytes)`. -/
def Header.size (bytes : List Nat) : Nat := leBytesToNat bytes

theorem Header.create_length (n : Nat) : (Header.create n).length = HEADER_SIZE :=
  natToLeBytes_length _ _

/-! ## Bincode serialization primitives -/

/-- Fixed 4-byte little-endian `u32` (bincode enum variant index). -/
def serU32 (n : Nat) : List Nat := natToLeBytes 4 n

/-- Fixed 8-byte little-endian `u64` (bincode length prefix / `i64`). -/
def serU64 (n : Nat) : List Nat := natToLeBytes 8 n

/-- Bincode encoding of a `Vec<u8>` or `String`: `u64` length then bytes. -/
def serBytes (v : List Nat) : List Nat := serU64 v.length ++ v

/-- Consume exactly `k` bytes of input, returning them and the rest;
fails when fewer than `k` bytes are available. -/
def readBytes (k : Nat) (l : List Nat) : Option (List Nat × List Nat) :=
  if k ≤ l.length then some (l.take k, l.drop k) else none

theorem readBytes_append {k : Nat} {b rest : List Nat} (h : b.length = k) :
    readBytes k (b ++ rest) = some (b, rest) := by
  subst h
  simp [readBytes, List.take_left, List.drop_left]

/-- Parse a bincode `u64`. -/
def parseU64 (l : List Nat) : Option (Nat × List Nat) :=
  (readBytes 8 l).map fun p => (leBytesToNat p.1, p.2)

/-- Parse a bincode `u32`. -/
def parseU32 (l : List Nat) : Option (Nat × List Nat) :=
  (readBytes 4 l).map fun p => (leBytesToNat p.1, p.2)

/-- Parse a bincode `Vec<u8>` / `String`. -/
def parseBytesLp (l : List Nat) : Option (List Nat × List Nat) := do
  let (n, r) ← parseU64 l
  readBytes n r

theorem parseU64_append {n : Nat} {rest : List Nat} (h : n < 2 ^ 64) :
    parseU64 (serU64 n ++ rest) = some (n, rest) := by
  have hb : n < 256 ^ 8 := by
    simpa [show (256 : Nat) ^ 8 = 2 ^ 64 by norm_num] using h
  rw [parseU64, serU64, readBytes_append (natToLeBytes_length 8 n)]
  simp [leBytesToNat_natToLeBytes_of_lt hb]

theorem parseBytesLp_append {v rest : List Nat} (h : v.length < 2 ^ 64) :
    parseBytesLp (serBytes v ++ rest) = some (v, rest) := by
  rw [serBytes, List.append_assoc, parseBytesLp]
  rw [parseU64_append h]
  simpa using readBytes_append (rfl : v.length = v.length)

/-! ## Tags and the message envelope

`piosphere/src/socket.rs`: `enum PiosphereTag { Hello, Overview,
ViewDeployment }` and `struct PiosphereRequest { tag: PiosphereTag,
message: Vec<u8> }`.  `piteria/src/socket.rs` declares the structurally
identical `PiteriaTag` / `PiteriaRequest`. -/

inductive PiosphereTag where
  | Hello
  | Overview
  | ViewDeployment
deriving DecidableEq, Repr

abbrev PiteriaTag := PiosphereTag

/-- Bincode variant index of the tag enum (declaration order). -/
def PiosphereTag.index : PiosphereTag → Nat
  | .Hello => 0
  | .Overview => 1
  | .ViewDeployment => 2

structure PiosphereRequest where
  tag : PiosphereTag
  message : List Nat
deriving DecidableEq, Repr

abbrev PiteriaRequest := PiosphereRequest

/-- Bincode serialization of the tag (a `u32` variant index). -/
def serTag (t : PiosphereTag) : List Nat := serU32 t.index

/-- Bincode deserialization of the tag. -/
def parseTag (l : List Nat) : Option (PiosphereTag × List Nat) := do
  let (n, r) ← parseU32 l
  match n with
  | 0 => some (.Hello, r)
  | 1 => some (.Overview, r)
  | 2 => some (.ViewDeployment, r)
  | _ => none

/-- Bincode serialization of the `PiosphereRequest` envelope: the tag
followed by the length-prefixed `message` vector. -/
def serRequest (r : PiosphereRequest) : List Nat :=
  serTag r.tag ++ serBytes r.message

/-- Bincode deserialization of the `PiosphereRequest` envelope. -/
def parseRequest (l : List Nat) : Option (PiosphereRequest × List Nat) := do
  let (t, r1) ← parseTag l
  let (m, r2) ← parseBytesLp r1
  some (⟨t, m⟩, r2)

theorem parseTag_append {t : PiosphereTag} {rest : List Nat} :
    parseTag (serTag t ++ rest) = some (t, rest) := by
  cases t <;>
    simp [parseTag, serTag, serU32, parseU32, PiosphereTag.index, natToLeBytes,
      readBytes, leBytesToNat]

theorem parseRequest_append {r : PiosphereRequest} {rest : List Nat}
    (h : r.message.length < 2 ^ 64) :
    parseRequest (serRequest r ++ rest) = some (r, rest) := by
  rw [serRequest, List.append_assoc, parseRequest, parseTag_append]
  simp [parseBytesLp_append h]

/-! ## The message catalog

`piosphere/src/socket/message.rs`: the three request structs `Hello`,
`Overview` and `ViewDeployment(pub String)`, each carrying a
`#[request(ResponseType, Tag)]` attribute binding it to its tag and
response type.  They are modelled as one inductive; the `String` payload
of `ViewDeployment` is its UTF-8 byte sequence. -/

inductive PiosphereMsg where
  | hello
  | overview
  | viewDeployment (id : List Nat)
deriving DecidableEq, Repr

/-- The tag associated to each request variant by its
`#[request(_, Tag)]` attribute in `message.rs` (the generated
`Message::tag` implementation). -/
def PiosphereMsg.tag : PiosphereMsg → PiosphereTag
  | .hello => .Hello
  | .overview => .Overview
  | .viewDeployment _ => .ViewDeployment

/-- Corresponds to `bincode::serialize(self)` for each request struct:
unit structs serialize to no bytes, the `String` payload to its
length-prefixed bytes. -/
def PiosphereMsg.serBody : PiosphereMsg → List Nat
  | .hello => []
  | .overview => []
  | .viewDeployment id => serBytes id

/-- Corresponds to `Message::to_request` in `piosphere/src/socket.rs`:
the tag is re-derived from the concrete variant via `self.tag()` and the
body is the variant's own serialization. -/
def PiosphereMsg.toRequest (m : PiosphereMsg) : PiosphereRequest :=
  ⟨m.tag, m.serBody⟩

/-- Corresponds to `<UnixStream as PiosphereWrite>::write` in
`piosphere/src/socket.rs`: serialize the envelope, prepend the
fixed-width little-endian length header, write both. -/
def encode (m : PiosphereMsg) : List Nat :=
  let env := serRequest m.toRequest
  Header.create env.length ++ env

/-- Corresponds to the per-tag `bincode::deserialize(&message)` the
server performs after reading the envelope (the `handle!` expansion in
`PiosphereService::respond`, and the `ViewDeployment` branch of
`PiteriaService::respond`): the decoder is selected by the tag. -/
def decodeBody (t : PiosphereTag) (message : List Nat) : Option PiosphereMsg :=
  match t with
  | .Hello => some .hello
  | .Overview => some .overview
  | .ViewDeployment => (parseBytesLp message).map fun p => .viewDeployment p.1

/-- The two-phase read of a framed message followed by envelope and body
deserialization (`ServerSession::read` in `piteria/src/socket/server.rs`
composed with the per-tag body decode): read `HEADER_SIZE` bytes, take
the decoded length, read exactly that many payload bytes, deserialize
the envelope, then deserialize the body for the envelope's tag. -/
def decode (bytes : List Nat) : Option PiosphereMsg := do
  let (hdr, rest) ← readBytes HEADER_SIZE bytes
  let len := Header.size hdr
  let (payload, _) ← readBytes len rest
  let (req, _) ← parseRequest payload
  decodeBody req.tag req.message

/-- Well-formedness of a request value as a Rust value: the id of
`ViewDeployment` is a `String`, whose byte length is below `2 ^ 64`
(a `usize`). -/
def PiosphereMsg.wf : PiosphereMsg → Prop
  | .hello => True
  | .overview => True
  | .viewDeployment id => id.length + 20 < 2 ^ 64

instance (m : PiosphereMsg) : Decidable m.wf := by
  cases m <;> simp [PiosphereMsg.wf] <;> infer_instance

theorem encode_eq (m : PiosphereMsg) :
    encode m = Header.create (serRequest m.toRequest).length ++ serRequest m.toRequest := rfl

theorem serRequest_toRequest_length (m : PiosphereMsg) :
    (serRequest m.toRequest).length = 12 + m.serBody.length := by
  cases m <;>
    simp [serRequest, PiosphereMsg.toRequest, serTag, serU32, serBytes, serU64,
      natToLeBytes_length, PiosphereMsg.serBody, PiosphereMsg.tag]
  omega

theorem serBody_length_lt {m : PiosphereMsg} (hm : m.wf) :
    m.serBody.length + 12 < 2 ^ 64 := by
  cases m with
  | hello => norm_num [PiosphereMsg.serBody]
  | overview => norm_num [PiosphereMsg.serBody]
  | viewDeployment id =>
      simp only [PiosphereMsg.serBody, serBytes, List.length_append, serU64,
        natToLeBytes_length]
      simp only [PiosphereMsg.wf] at hm
      omega

theorem decode_encode {m : PiosphereMsg} (hm : m.wf) : decode (encode m) = some m := by
  have hsb := serBody_length_lt hm
  have hlen : (serRequest m.toRequest).length < 2 ^ 64 := by
    rw [serRequest_toRequest_length]; omega
  have hbody : m.toRequest.message.length < 2 ^ 64 := by
    show m.serBody.length < 2 ^ 64
    omega
  rw [encode, decode]
  rw [readBytes_append (Header.create_length _)]
  simp only [Option.bind_eq_bind, Option.some_bind]
  have hsz : Header.size (Header.create (serRequest m.toRequest).length)
      = (serRequest m.toRequest).length := by
    rw [Header.size, Header.create, HEADER_SIZE,
      leBytesToNat_natToLeBytes_of_lt]
    calc (serRequest m.toRequest).length < 2 ^ 64 := hlen
      _ = 256 ^ 8 := by norm_num
  rw [hsz]
  have hrd : readBytes (serRequest m.toRequest).length (serRequest m.toRequest)
      = some (serRequest m.toRequest, []) := by
    have := @readBytes_append (serRequest m.toRequest).length (serRequest m.toRequest) [] rfl
    simpa using this
  rw [hrd, Option.some_bind]
  have hpr : parseRequest (serRequest m.toRequest)
      = some (m.toRequest, []) := by
    have := @parseRequest_append m.toRequest [] hbody
    simpa using this
  rw [hpr, Option.some_bind]
  cases m with
  | hello => rfl
  | overview => rfl
  | viewDeployment id =>
      simp only [PiosphereMsg.toRequest, PiosphereMsg.tag, PiosphereMsg.serBody,
        decodeBody]
      have hid : id.length < 2 ^ 64 := by
        simp only [PiosphereMsg.wf] at hm; omega
      rw [show serBytes id = serBytes id ++ [] by simp,
        parseBytesLp_append hid]
      rfl

/-- C3: encoding any request of the message catalog — serializing it to
an envelope `{tag, body}` with the tag derived from the variant,
prefixed by the fixed-width little-endian length of the serialized
envelope — and then decoding (read the header, read exactly that many
payload bytes, deserialize the envelope, deserialize the body for the
tag) yields a value equal to the original request; and
`Header.size (Header.create n) = n` for every `usize` length `n`. -/
theorem claim_c3_roundtrip :
    (∀ m : PiosphereMsg, m.wf → decode (encode m) = some m) ∧
      (∀ n : Nat, n < 2 ^ 64 → Header.size (Header.create n) = n) := by
  refine ⟨fun m hm => decode_encode hm, fun n hn => ?_⟩
  rw [Header.size, Header.create, HEADER_SIZE, leBytesToNat_natToLeBytes_of_lt]
  calc n < 2 ^ 64 := hn
    _ = 256 ^ 8 := by norm_num

/-- Witness for C3 at concrete inputs: the round-trip on
`ViewDeployment("hi")` (bytes `[104, 105]`) and the header identity at
length `12`. -/
theorem claim_c3_roundtrip_witness :
    decode (encode (.viewDeployment [104, 105])) = some (.viewDeployment [104, 105]) ∧
      Header.size (Header.create 12) = 12 :=
  ⟨claim_c3_roundtrip.1 (.viewDeployment [104, 105]) (by norm_num [PiosphereMsg.wf]),
    claim_c3_roundtrip.2 12 (by norm_num)⟩

/-! ## Server-side frame reading

`ServerSession::read` in `piteria/src/socket/server.rs`:

```text
stream.readable().await?;
let mut buf = [0; HEADER_SIZE];
if let Err(e) = stream.read_exact(&mut buf).await {
    if let ErrorKind::UnexpectedEof = e.kind() {
        return Err(PiteriaIOError::SocketClosed(e.to_string()));
    }
};
let len = Header::size(buf);
let mut buf = vec![0; len];
stream.read_exact(&mut buf).await?;
let msg = bincode::deserialize(&buf)?;
Ok(msg)
```

Note the control flow of the first `read_exact`: only the
`UnexpectedEof` kind returns early; any other error kind falls off the
`if let` and execution continues with whatever bytes `buf` holds.

The stream is modelled by the outcome of the header `read_exact`
(either the 8 bytes it filled, or an error kind together with the
unspecified partial contents the failed call left in `buf`) and by the
bytes available for the subsequent payload `read_exact`. -/

/-- Error kinds of `std::io::Error` distinguished by the code. -/
inductive ErrorKind where
  | unexpectedEof
  | connectionReset
  | otherKind
deriving DecidableEq, Repr

/-- Errors of `PiteriaIOError` (`piteria/src/socket.rs`) reachable in
`ServerSession::read`; payload strings are dropped. -/
inductive PiteriaIOError where
  | socketClosed
  | channelClosed
  | response
  | bincode
  | malformedHeader
  | io (kind : ErrorKind)
deriving DecidableEq, Repr

/-- Outcome of `read_exact` on the 8-byte header buffer: either the
buffer was fully filled, or the call failed with some error kind leaving
the buffer in an unspecified (partially written) state. -/
inductive HeaderReadOutcome where
  | filled (buf : List Nat)
  | failed (kind : ErrorKind) (buf : List Nat)
deriving DecidableEq, Repr

/-- Shallow embedding of `ServerSession::read` (envelope level): the
deserialization target is `PiteriaRequest`.  `avail` is the byte
sequence the stream can still supply for the payload `read_exact`
(`read_exact` reports `UnexpectedEof` when it runs out). -/
def serverRead (header : HeaderReadOutcome) (avail : List Nat) :
    Except PiteriaIOError PiteriaRequest :=
  let proceed : List Nat → Except PiteriaIOError PiteriaRequest := fun buf =>
    let len := Header.size buf
    match readBytes len avail with
    | none => .error (.io .unexpectedEof)
    | some (payload, _) =>
        match parseRequest payload with
        | none => .error .bincode
        | some (msg, _) => .ok msg
  match header with
  | .filled buf => proceed buf
  | .failed kind buf =>
      if kind = .unexpectedEof then .error .socketClosed else proceed buf

/-- C5 counterexample record: when the header `read_exact` fails with a
kind other than `UnexpectedEof` (here `ConnectionReset`, the buffer left
holding `[12, 0, 0, 0, 0, 0, 0, 0]`), `ServerSession::read` does not
return an error: it interprets the partial buffer as a length-12 header,
consumes the next 12 stream bytes, and yields a decoded message. -/
theorem claim_c5_counterexample :
    serverRead (.failed .connectionReset [12, 0, 0, 0, 0, 0, 0, 0])
        (List.replicate 12 0)
      = .ok ⟨.Hello, []⟩ ∧
    serverRead (.failed .unexpectedEof []) [] = .error .socketClosed := by
  constructor <;> rfl

/-! ## The piteria service (Service Dispatch) and server session loop

`piteria/src/lib.rs` (`PiteriaService::respond`, `view_deployment`) and
`piteria/src/db.rs` (`PiteriaDatabase::get_deployment`,
`list_deployments`).

The relational store is modelled by its row lists; `fetch_one` on an
empty result set is sqlx's `RowNotFound` error.  The config-file
parsers and the filesystem are out-of-scope external collaborators
(spec §1), so they are carried as function fields of the service model:
`fs` models `std::fs::read_to_string` (`none` = io error),
`parseNginx` models `NginxConfig::parse` (`none` = parse failure) and
`parseSysd` models the total `SystemdConfig::parse`.  Parse results are
modelled abstractly by their raw-text carrier. -/

/-- Rust `String`, as its UTF-8 byte sequence. -/
abbrev RStr := List Nat

abbrev NginxConfigV := RStr
abbrev SystemdConfigV := RStr

/-- Row of the `deployments` table (`piteria/src/db.rs::Deployment`);
the `i64` id is modelled by its 64-bit pattern. -/
structure PDbDeployment where
  id : Nat
  name : RStr
  description : RStr
  createdAt : Nat
deriving DecidableEq, Repr

/-- Row of `nginx_configs` / `sysd_configs`
(`piteria/src/db.rs::Config`). -/
structure PDbConfig where
  id : Nat
  deploymentId : Nat
  filePath : RStr
  createdAt : Nat
deriving DecidableEq, Repr

/-- The sqlx failures dispatch can hit in these queries. -/
inductive SqlxError where
  | rowNotFound
deriving DecidableEq, Repr

/-- Variants of `PiteriaError` (`piteria/src/error.rs`). -/
inductive PiteriaError where
  | io
  | nginxParse
  | piteriaIOError (e : PiteriaIOError)
  | sqlx (e : SqlxError)
deriving DecidableEq, Repr

structure PiteriaDatabase where
  deployments : List PDbDeployment
  nginxConfigs : List PDbConfig
  sysdConfigs : List PDbConfig

/-- The materialized `piteria/src/deployment.rs::Deployment`. -/
structure DeploymentV where
  name : RStr
  description : RStr
  serviceCfg : SystemdConfigV
  nginxCfg : NginxConfigV
deriving DecidableEq, Repr

structure PiteriaService where
  db : PiteriaDatabase
  fs : RStr → Option RStr
  parseNginx : RStr → Option NginxConfigV
  parseSysd : RStr → SystemdConfigV

/-- `PiteriaDatabase::get_deployment`: `fetch_one` the deployment row by
id, then the nginx and sysd config rows by `deployment_id`; each
`fetch_one` fails with `RowNotFound` when no row matches. -/
def PiteriaDatabase.getDeployment (db : PiteriaDatabase) (id : Nat) :
    Except SqlxError (PDbDeployment × PDbConfig × PDbConfig) := do
  let dep ← match db.deployments.find? (fun d => d.id == id) with
    | none => .error .rowNotFound
    | some d => .ok d
  let ncfg ← match db.nginxConfigs.find? (fun c => c.deploymentId == dep.id) with
    | none => .error .rowNotFound
    | some c => .ok c
  let scfg ← match db.sysdConfigs.find? (fun c => c.deploymentId == dep.id) with
    | none => .error .rowNotFound
    | some c => .ok c
  .ok (dep, ncfg, scfg)

/-- `PiteriaService::view_deployment`: fetch the three rows, read and
parse both config files, assemble the materialized deployment. -/
def PiteriaService.viewDeployment (svc : PiteriaService) (id : Nat) :
    Except PiteriaError DeploymentV := do
  let (dep, ncfgRow, scfgRow) ←
    match svc.db.getDeployment id with
    | .error e => .error (.sqlx e)
    | .ok v => .ok v
  let nfile ← match svc.fs ncfgRow.filePath with
    | none => .error .io
    | some s => .ok s
  let ncfg ← match svc.parseNginx nfile with
    | none => .error .nginxParse
    | some c => .ok c
  let sfile ← match svc.fs scfgRow.filePath with
    | none => .error .io
    | some s => .ok s
  let scfg := svc.parseSysd sfile
  .ok ⟨dep.name, dep.description, scfg, ncfg⟩

/-- Values written back by `PiteriaService::respond` (one per tag). -/
inductive PiteriaResponseV where
  | hello
  | overview (deps : List PDbDeployment)
  | viewDeployment (d : DeploymentV)
deriving DecidableEq, Repr

/-- `PiteriaService::respond` (`piteria/src/lib.rs`): match on the tag,
deserialize the body where needed (`ViewDeployment` carries a bincode
`i64`), run the domain computation, write the response.  Every `?`
failure propagates out of `respond` without anything being written;
the stream write itself is modelled as succeeding.  A body too short to
deserialize is a bincode failure. -/
def PiteriaService.respond (svc : PiteriaService) (msg : PiteriaRequest) :
    Except PiteriaError PiteriaResponseV :=
  match msg.tag with
  | .Hello => .ok .hello
  | .Overview => .ok (.overview svc.db.deployments)
  | .ViewDeployment => do
      let id ← match readBytes 8 msg.message with
        | none => .error (.piteriaIOError .bincode)
        | some p => .ok (leBytesToNat p.1)
      let d ← svc.viewDeployment id
      .ok (.viewDeployment d)

/-- Outcome of one iteration of the `ServerSession::run` loop
(`piteria/src/socket/server.rs`, read arm of the `select!`). -/
inductive SessionStep where
  | wrote (r : PiteriaResponseV)
  | panicked (e : PiteriaError)
  | closedNotifiedBreak
  | loggedContinue (e : PiteriaIOError)
deriving DecidableEq, Repr

/-- One iteration of the session loop on a completed read:
`Ok(message)` runs `self.service.respond(..).await.unwrap()` — an `Err`
from dispatch panics the session task; `Err(SocketClosed)` sends
`SystemMessage::Close(id)` to the runtime and breaks; any other read
error is logged (`dbg!`) and the loop continues. -/
def sessionStep (svc : PiteriaService)
    (readRes : Except PiteriaIOError PiteriaRequest) : SessionStep :=
  match readRes with
  | .ok msg =>
      match svc.respond msg with
      | .ok r => .wrote r
      | .error e => .panicked e
  | .error .socketClosed => .closedNotifiedBreak
  | .error e => .loggedContinue e

/-- A service over an empty store (no deployments, no files). -/
def emptyPiteriaService : PiteriaService where
  db := ⟨[], [], []⟩
  fs := fun _ => none
  parseNginx := fun _ => none
  parseSysd := fun s => s

/-- C1 divergence record: a `ViewDeployment` request whose id (here 5)
has no row in the store makes dispatch fail at the domain level
(`RowNotFound`); `respond` propagates the error with `?` writing
nothing back, and the session loop's `.unwrap()` panics the session
task instead of writing the failure back as a protocol response. -/
theorem claim_c1_dispatch_failure_panics :
    sessionStep emptyPiteriaService (.ok ⟨.ViewDeployment, serU64 5⟩)
      = .panicked (.sqlx .rowNotFound) ∧
    PiteriaService.respond emptyPiteriaService ⟨.ViewDeployment, serU64 5⟩
      = .error (.sqlx .rowNotFound) := by
  constructor <;> rfl

/-! ## The piosphere client session and facade

`piosphere/src/socket/client.rs`.  Error type:
`piosphere/src/socket.rs::PiosphereIOError`, with the same variants as
the modelled `PiteriaIOError`, so that type is reused. -/

abbrev PiosphereIOError := PiteriaIOError

/-- `ClientSession::read`: `stream.readable().await?`, then
`PiosphereHeader::read` (a bare `read_exact?` — end-of-stream surfaces
as `Io(UnexpectedEof)`, never as `SocketClosed`), then `read_exact` of
`len` payload bytes.  The stream is modelled by the byte sequence it
can still supply before end-of-stream. -/
def clientRead (avail : List Nat) : Except PiosphereIOError (List Nat) :=
  match readBytes HEADER_SIZE avail with
  | none => .error (.io .unexpectedEof)
  | some (hdr, rest) =>
      let len := Header.size hdr
      match readBytes len rest with
      | none => .error (.io .unexpectedEof)
      | some (payload, _) => .ok payload

/-- Outcome of one `msg_rx.recv()` iteration of `ClientSession::start`
for the dequeued caller request. -/
inductive ClientStep where
  | delivered (res : List Nat)
  | skippedWriteContinue
  | droppedContinue
  | terminated
deriving DecidableEq, Repr

/-- One iteration of the client session loop on a dequeued request.
`writeErr` is the outcome of `self.stream.write(msg)`: an
`Err(PiosphereIOError::Io(_))` skips the read and continues (the
caller's oneshot sender is dropped); any other outcome falls through to
the read.  A read `Ok` is forwarded on the caller's oneshot; a read
`Err(SocketClosed)` breaks the loop; any other read error is logged and
the loop continues (again dropping the oneshot sender). -/
def clientStep (writeErr : Option PiosphereIOError) (avail : List Nat) :
    ClientStep :=
  match writeErr with
  | some (.io _) => .skippedWriteContinue
  | _ =>
      match clientRead avail with
      | .ok res => .delivered res
      | .error .socketClosed => .terminated
      | .error _ => .droppedContinue

/-- What the caller parked on the oneshot receiver observes
(`Client::request`): a forwarded response, or — because the session
dropped the oneshot sender without sending — a `ChannelClosed` failure
(`rx.await` resolves with `RecvError`, mapped to `ChannelClosed`).
The caller never hangs: the sender is either used or dropped. -/
def callerSees (st : ClientStep) : Except PiosphereIOError (List Nat) :=
  match st with
  | .delivered res => .ok res
  | _ => .error .channelClosed

/-- C2 divergence record: when the write succeeds and the peer then
closes the connection (no bytes left to read), `ClientSession::read`
fails with `Io(UnexpectedEof)` — the `SocketClosed` arm of the session
loop can never match any read error, so the session continues instead
of terminating; the in-flight caller does observe a `ChannelClosed`
failure rather than hanging. -/
theorem clientRead_ne_socketClosed (avail : List Nat) :
    clientRead avail ≠ .error .socketClosed := by
  rw [clientRead]
  cases readBytes HEADER_SIZE avail with
  | none => simp
  | some p =>
      obtain ⟨hdr, rest⟩ := p
      simp only
      cases readBytes (Header.size hdr) rest <;> simp

theorem claim_c2_peer_close_not_terminal :
    clientStep none [] = .droppedContinue ∧
    clientRead [] = .error (.io .unexpectedEof) ∧
    (∀ (w : Option PiosphereIOError) (avail : List Nat),
      clientStep w avail ≠ .terminated) ∧
    callerSees (clientStep none []) = .error .channelClosed := by
  refine ⟨rfl, rfl, ?_, rfl⟩
  intro w avail
  have hns := clientRead_ne_socketClosed avail
  match w with
  | some (.io k) => simp [clientStep]
  | none | some .socketClosed | some .channelClosed | some .response
  | some .bincode | some .malformedHeader =>
      simp only [clientStep]
      cases h : clientRead avail with
      | ok res => simp
      | error e => cases e <;> simp_all

/-! ## Sequential request processing in the client session

`ClientSession::start` (`piosphere/src/socket/client.rs`): the loop body
dequeues one `PiosphereClientRequest { tx, msg }` at a time, writes it,
reads the response, forwards it on `tx` — only then does the next
iteration dequeue the next request.  The loop is modelled as a function
from the queue of enqueued requests (each carrying the identity of its
caller's private oneshot channel) to the trace of wire/channel events,
with the per-iteration I/O outcome supplied by an environment indexed by
queue position. -/

/-- Per-iteration I/O outcome for the dequeued request: the write failed
with `Io` (read skipped), or the write went through and the read
returned a response / failed with `SocketClosed` / failed otherwise. -/
inductive ReqOutcome where
  | writeIoErr
  | readOk (res : List Nat)
  | readErrSocketClosed
  | readErrOther
deriving DecidableEq, Repr

/-- Events of the client-session trace, each tagged with the queue
position `i` of the request it belongs to and the oneshot-channel
identity `c` of that request's caller. -/
inductive WireEv where
  | writeAttempt (i : Nat) (c : Nat)
  | readDone (i : Nat) (c : Nat)
  | readFailed (i : Nat) (c : Nat)
  | deliver (i : Nat) (c : Nat) (res : List Nat)
deriving DecidableEq, Repr

/-- The queue position a trace event belongs to. -/
def WireEv.reqIdx : WireEv → Nat
  | .writeAttempt i _ => i
  | .readDone i _ => i
  | .readFailed i _ => i
  | .deliver i _ _ => i

/-- The `ClientSession::start` loop over the queued requests, starting
at queue position `i`: write the dequeued request (an `Io` write error
skips the read and continues), read the response, deliver it on the
dequeued request's own oneshot, and only then process the rest; a
`SocketClosed` read error breaks the loop. -/
def sessionLoop (env : Nat → ReqOutcome) : List Nat → Nat → List WireEv
  | [], _ => []
  | c :: cs, i =>
      match env i with
      | .writeIoErr => .writeAttempt i c :: sessionLoop env cs (i + 1)
      | .readOk res =>
          .writeAttempt i c :: .readDone i c :: .deliver i c res ::
            sessionLoop env cs (i + 1)
      | .readErrSocketClosed => [.writeAttempt i c, .readFailed i c]
      | .readErrOther =>
          .writeAttempt i c :: .readFailed i c :: sessionLoop env cs (i + 1)

theorem sessionLoop_reqIdx_ge (env : Nat → ReqOutcome) (cs : List Nat)
    (i : Nat) : ∀ ev ∈ sessionLoop env cs i, i ≤ ev.reqIdx := by
  induction cs generalizing i with
  | nil => intro ev h; simp [sessionLoop] at h
  | cons c cs ih =>
      intro ev h
      rw [sessionLoop] at h
      have step : ∀ e ∈ sessionLoop env cs (i + 1), i ≤ e.reqIdx := fun e he =>
        Nat.le_of_succ_le (ih (i + 1) e he)
      cases henv : env i <;> rw [henv] at h <;>
        simp only [List.mem_cons, List.mem_singleton] at h
      case writeIoErr =>
        rcases h with h | h
        · subst h; simp [WireEv.reqIdx]
        · exact step _ h
      case readOk res =>
        rcases h with h | h | h | h
        · subst h; simp [WireEv.reqIdx]
        · subst h; simp [WireEv.reqIdx]
        · subst h; simp [WireEv.reqIdx]
        · exact step _ h
      case readErrSocketClosed =>
        rcases h with h | h
        · subst h; simp [WireEv.reqIdx]
        · rcases h with h | h
          · subst h; simp [WireEv.reqIdx]
          · simp at h
      case readErrOther =>
        rcases h with h | h | h
        · subst h; simp [WireEv.reqIdx]
        · subst h; simp [WireEv.reqIdx]
        · exact step _ h

theorem sessionLoop_chain (env : Nat → ReqOutcome) (cs : List Nat) (i : Nat) :
    List.Chain' (fun a b => WireEv.reqIdx a ≤ WireEv.reqIdx b)
      (sessionLoop env cs i) := by
  induction cs generalizing i with
  | nil => simp [sessionLoop]
  | cons c cs ih =>
      have hrest : ∀ y ∈ (sessionLoop env cs (i + 1)).head?,
          i ≤ y.reqIdx := by
        intro y hy
        exact Nat.le_of_succ_le
          (sessionLoop_reqIdx_ge env cs (i + 1) y (List.mem_of_mem_head? hy))
      rw [sessionLoop]
      cases env i with
      | writeIoErr =>
          rw [List.chain'_cons']
          exact ⟨fun y hy => hrest y hy, ih (i + 1)⟩
      | readOk res =>
          rw [List.chain'_cons', List.chain'_cons', List.chain'_cons']
          refine ⟨?_, ?_, ?_, ih (i + 1)⟩
          · intro y hy; simp at hy; subst hy; simp [WireEv.reqIdx]
          · intro y hy; simp at hy; subst hy; simp [WireEv.reqIdx]
          · exact fun y hy => hrest y hy
      | readErrSocketClosed =>
          simp [List.chain'_cons', WireEv.reqIdx]
      | readErrOther =>
          rw [List.chain'_cons', List.chain'_cons']
          refine ⟨?_, ?_, ih (i + 1)⟩
          · intro y hy; simp at hy; subst hy; simp [WireEv.reqIdx]
          · exact fun y hy => hrest y hy

theorem sessionLoop_deliver_correlated (env : Nat → ReqOutcome)
    (cs : List Nat) (i : Nat) :
    ∀ j c res, WireEv.deliver j c res ∈ sessionLoop env cs i →
      cs[j - i]? = some c ∧ env j = .readOk res := by
  induction cs generalizing i with
  | nil => intro j c res h; simp [sessionLoop] at h
  | cons c0 cs ih =>
      intro j c res h
      have hrest : WireEv.deliver j c res ∈ sessionLoop env cs (i + 1) →
          (c0 :: cs)[j - i]? = some c ∧ env j = .readOk res := by
        intro hm
        have hge := sessionLoop_reqIdx_ge env cs (i + 1) _ hm
        simp only [WireEv.reqIdx] at hge
        obtain ⟨h1, h2⟩ := ih (i + 1) j c res hm
        refine ⟨?_, h2⟩
        have hk : j - i = (j - (i + 1)) + 1 := by omega
        rw [hk, List.getElem?_cons_succ]
        exact h1
      rw [sessionLoop] at h
      cases henv : env i <;> rw [henv] at h <;>
        simp only [List.mem_cons, List.mem_singleton] at h
      case writeIoErr =>
        rcases h with h | h
        · exact absurd h (by simp)
        · exact hrest h
      case readOk res0 =>
        rcases h with h | h | h | h
        · exact absurd h (by simp)
        · exact absurd h (by simp)
        · obtain ⟨hj, hc, hres⟩ := WireEv.deliver.inj h
          subst hj; subst hc; subst hres
          simp [henv]
        · exact hrest h
      case readErrSocketClosed =>
        rcases h with h | h
        · exact absurd h (by simp)
        · rcases h with h | h
          · exact absurd h (by simp)
          · exact absurd h (by simp)
      case readErrOther =>
        rcases h with h | h | h
        · exact absurd h (by simp)
        · exact absurd h (by simp)
        · exact hrest h

theorem sessionLoop_deliver_after_read (env : Nat → ReqOutcome)
    (cs : List Nat) (i : Nat) :
    ∀ j c res, WireEv.deliver j c res ∈ sessionLoop env cs i →
      WireEv.readDone j c ∈ sessionLoop env cs i := by
  induction cs generalizing i with
  | nil => intro j c res h; simp [sessionLoop] at h
  | cons c0 cs ih =>
      intro j c res h
      rw [sessionLoop] at h ⊢
      revert h
      cases henv : env i <;>
        (intro h; simp only [List.mem_cons, List.mem_singleton] at h ⊢)
      case writeIoErr =>
        rcases h with h | h
        · exact absurd h (by simp)
        · exact Or.inr (ih (i + 1) j c res h)
      case readOk res0 =>
        rcases h with h | h | h | h
        · exact absurd h (by simp)
        · exact absurd h (by simp)
        · obtain ⟨hj, hc, _⟩ := WireEv.deliver.inj h
          subst hj; subst hc
          exact Or.inr (Or.inl rfl)
        · exact Or.inr (Or.inr (Or.inr (ih (i + 1) j c res h)))
      case readErrSocketClosed =>
        rcases h with h | h
        · exact absurd h (by simp)
        · rcases h with h | h
          · exact absurd h (by simp)
          · exact absurd h (by simp)
      case readErrOther =>
        rcases h with h | h | h
        · exact absurd h (by simp)
        · exact absurd h (by simp)
        · exact Or.inr (Or.inr (ih (i + 1) j c res h))

theorem sessionLoop_read_after_write (env : Nat → ReqOutcome)
    (cs : List Nat) (i : Nat) :
    ∀ j c, WireEv.readDone j c ∈ sessionLoop env cs i →
      WireEv.writeAttempt j c ∈ sessionLoop env cs i := by
  induction cs generalizing i with
  | nil => intro j c h; simp [sessionLoop] at h
  | cons c0 cs ih =>
      intro j c h
      rw [sessionLoop] at h ⊢
      revert h
      cases henv : env i <;>
        (intro h; simp only [List.mem_cons, List.mem_singleton] at h ⊢)
      case writeIoErr =>
        rcases h with h | h
        · exact absurd h (by simp)
        · exact Or.inr (ih (i + 1) j c h)
      case readOk res0 =>
        rcases h with h | h | h | h
        · exact absurd h (by simp)
        · obtain ⟨hj, hc⟩ := WireEv.readDone.inj h
          subst hj; subst hc
          exact Or.inl rfl
        · exact absurd h (by simp)
        · exact Or.inr (Or.inr (Or.inr (ih (i + 1) j c h)))
      case readErrSocketClosed =>
        rcases h with h | h
        · exact absurd h (by simp)
        · rcases h with h | h
          · exact absurd h (by simp)
          · exact absurd h (by simp)
      case readErrOther =>
        rcases h with h | h | h
        · exact absurd h (by simp)
        · exact absurd h (by simp)
        · exact Or.inr (Or.inr (ih (i + 1) j c h))

/-- C6: the client session serializes concurrent callers: the trace of
wire events is ordered by queue position (every event of request N
precedes every event of request N+1 — at most one pending call is on
the wire at any instant), a response is delivered only after the
session fully read it for the request it belongs to, a read only
happens after that request's write, and each delivery goes to the
oneshot channel of the caller that enqueued that request, carrying the
response read for that request. -/
theorem claim_c6_half_duplex (env : Nat → ReqOutcome) (callers : List Nat) :
    List.Chain' (fun a b => WireEv.reqIdx a ≤ WireEv.reqIdx b)
      (sessionLoop env callers 0) ∧
    (∀ j c res, WireEv.deliver j c res ∈ sessionLoop env callers 0 →
      callers[j]? = some c ∧ env j = .readOk res) ∧
    (∀ j c res, WireEv.deliver j c res ∈ sessionLoop env callers 0 →
      WireEv.readDone j c ∈ sessionLoop env callers 0) ∧
    (∀ j c, WireEv.readDone j c ∈ sessionLoop env callers 0 →
      WireEv.writeAttempt j c ∈ sessionLoop env callers 0) := by
  refine ⟨sessionLoop_chain env callers 0, ?_,
    sessionLoop_deliver_after_read env callers 0,
    sessionLoop_read_after_write env callers 0⟩
  intro j c res h
  have := sessionLoop_deliver_correlated env callers 0 j c res h
  simpa using this

/-- Witness for C6 at a concrete queue: two callers with channels 7 and
9; the first exchange succeeds with response `[1]` and is delivered to
channel 7. -/
theorem claim_c6_half_duplex_witness :
    ([7, 9] : List Nat)[0]? = some 7 ∧
      (fun k => if k = 0 then ReqOutcome.readOk [1] else .readOk [2]) 0
        = .readOk [1] :=
  (claim_c6_half_duplex
      (fun k => if k = 0 then ReqOutcome.readOk [1] else .readOk [2])
      [7, 9]).2.1 0 7 [1] (by decide)

/-! ## The client facade constructor

`Client::new` (`piosphere/src/socket/client.rs`): connect the unix
stream (`?` propagates a connect failure), spawn the session, then run
`this.request(Hello).await?` as a connectivity self-test before
returning the handle.  `Client::request` enqueues the request on the
freshly spawned session (the channel has just been created, so the send
succeeds) and awaits the caller's oneshot; what that oneshot resolves to
is exactly `callerSees` of the session's processing of the exchange.
The `Hello` response is a unit struct, so its deserialization always
succeeds. -/

/-- Variants of `PiosphereError` (`piosphere/src/error.rs`). -/
inductive PiosphereError where
  | io
  | nginxParse
  | piosphereIOError (e : PiosphereIOError)
  | sqlx (e : SqlxError)
  | bincode
deriving DecidableEq, Repr

/-- The usable client handle (its channel endpoints carry no data
relevant to the model). -/
structure ClientHandle where
deriving DecidableEq, Repr

/-- `Client::request` as observed by the caller, for an exchange whose
session-side processing had outcome `st`. -/
def clientRequest (st : ClientStep) : Except PiosphereError (List Nat) :=
  match callerSees st with
  | .error e => .error (.piosphereIOError e)
  | .ok res => .ok res

/-- `Client::new`: `connectErr` is the outcome of
`UnixStream::connect(socket)`; `helloStep` is the session's processing
of the `Hello` handshake exchange.  Any failure propagates with `?` and
no handle is returned. -/
def clientNew (connectErr : Option PiosphereIOError) (helloStep : ClientStep) :
    Except PiosphereError ClientHandle :=
  match connectErr with
  | some e => .error (.piosphereIOError e)
  | none =>
      match clientRequest helloStep with
      | .error e => .error e
      | .ok _ => .ok ⟨⟩

/-- C9: `Client::new` yields a usable handle exactly when the
connection succeeded and the `Hello` liveness round-trip delivered a
response; when the handshake exchange fails, the failure itself is
returned and no handle is produced. -/
theorem claim_c9_handshake_gate :
    (∀ (c : Option PiosphereIOError) (st : ClientStep),
      (∃ h, clientNew c st = .ok h) ↔
        (c = none ∧ ∃ res, callerSees st = .ok res)) ∧
    (∀ (st : ClientStep) (e : PiosphereIOError), callerSees st = .error e →
      clientNew none st = .error (.piosphereIOError e)) := by
  constructor
  · intro c st
    constructor
    · intro ⟨h, hh⟩
      match c with
      | some e => simp [clientNew] at hh
      | none =>
          refine ⟨rfl, ?_⟩
          revert hh
          rw [clientNew, clientRequest]
          cases hcs : callerSees st with
          | ok res => exact fun _ => ⟨res, rfl⟩
          | error e => simp
    · rintro ⟨hc, res, hres⟩
      subst hc
      exact ⟨⟨⟩, by rw [clientNew, clientRequest, hres]⟩
  · intro st e he
    rw [clientNew, clientRequest, he]

/-- Witness for C9: a handshake exchange in which the peer closed and
the session dropped the caller's oneshot resolves `Client::new` to the
`ChannelClosed` failure, and a delivered handshake response yields a
handle. -/
theorem claim_c9_handshake_gate_witness :
    clientNew none .droppedContinue
        = .error (.piosphereIOError .channelClosed) ∧
      ∃ h, clientNew none (.delivered []) = .ok h :=
  ⟨claim_c9_handshake_gate.2 .droppedContinue .channelClosed rfl,
    (claim_c9_handshake_gate.1 none (.delivered [])).2 ⟨rfl, [], rfl⟩⟩

/-! ## The server runtime

`ServerRuntime` (`piteria/src/socket/server.rs`): owns the listener and
two `HashMap<usize, _>` registries — `terminators` (session id → that
session's termination sender) and `handles` (session id → that
session's task join handle).  The maps are modelled as association
lists with `HashMap`-style lookup/remove; the senders and join handles
themselves are identified by opaque numerals. -/

/-- Association-list lookup (`HashMap::get` semantics under unique
keys). -/
def lookupKey (k : Nat) : List (Nat × Nat) → Option Nat
  | [] => none
  | p :: ps => if p.1 = k then some p.2 else lookupKey k ps

/-- Association-list removal (`HashMap::remove` semantics under unique
keys). -/
def eraseKey (k : Nat) : List (Nat × Nat) → List (Nat × Nat)
  | [] => []
  | p :: ps => if p.1 = k then eraseKey k ps else p :: eraseKey k ps

theorem lookupKey_eraseKey_self (k : Nat) (l : List (Nat × Nat)) :
    lookupKey k (eraseKey k l) = none := by
  induction l with
  | nil => rfl
  | cons p ps ih =>
      rw [eraseKey]
      by_cases h : p.1 = k
      · simpa [h] using ih
      · simpa [lookupKey, h] using ih

theorem lookupKey_eraseKey_ne {a k : Nat} (l : List (Nat × Nat))
    (h : a ≠ k) : lookupKey a (eraseKey k l) = lookupKey a l := by
  induction l with
  | nil => rfl
  | cons p ps ih =>
      by_cases hp : p.1 = k
      · have hpa : p.1 ≠ a := by rw [hp]; exact Ne.symm h
        rw [eraseKey, if_pos hp, ih, lookupKey, if_neg hpa]
      · rw [eraseKey, if_neg hp, lookupKey, ih, lookupKey]

theorem eraseKey_of_lookupKey_none {k : Nat} {l : List (Nat × Nat)}
    (h : lookupKey k l = none) : eraseKey k l = l := by
  induction l with
  | nil => rfl
  | cons p ps ih =>
      rw [lookupKey] at h
      by_cases hp : p.1 = k
      · simp [hp] at h
      · rw [eraseKey, if_neg hp, ih (by simpa [hp] using h)]

/-- The runtime's mutable state: both registries and the `next_id`
counter. -/
structure ServerRuntime where
  terminators : List (Nat × Nat)
  handles : List (Nat × Nat)
  nextId : Nat
deriving DecidableEq, Repr

/-- `ServerRuntime::gen_id`: returns `next_id` and advances it with
`overflowing_add(1)` (wrapping on `usize` overflow). -/
def ServerRuntime.genId (st : ServerRuntime) : Nat × ServerRuntime :=
  (st.nextId, { st with nextId := (st.nextId + 1) % 2 ^ 64 })

/-- `SystemMessage` (`piteria/src/socket/server.rs`): sent by a session
when it closes. -/
inductive SystemMessage where
  | close (id : Nat)
deriving DecidableEq, Repr

/-- Externally observable actions of the runtime loop. -/
inductive RtAct where
  | spawn (id : Nat)
  | signal (id : Nat) (ch : Nat)
  | awaitTask (id : Nat) (h : Nat)
  | ret
deriving DecidableEq, Repr

/-- `ServerRuntime::process_sys` on `SystemMessage::Close(id)`: remove
the id's entry from `handles`, await the removed join handle if one was
present, remove the id's entry from `terminators`, and return `Ok(())`.
The emitted action list records the awaited handle. -/
def ServerRuntime.processSys (st : ServerRuntime) (m : SystemMessage) :
    ServerRuntime × List RtAct × Except PiteriaError Unit :=
  match m with
  | .close id =>
      let handle := lookupKey id st.handles
      let acts := match handle with
        | some h => [RtAct.awaitTask id h]
        | none => []
      ({ st with
          handles := eraseKey id st.handles,
          terminators := eraseKey id st.terminators },
        acts, .ok ())

/-- External events driving the `ServerRuntime::run` select loop. -/
inductive RtEv where
  | accept
  | acceptErr
  | sysMsg (m : Option SystemMessage)
  | terminate
deriving DecidableEq, Repr

/-- The `ServerRuntime::run` loop as a trace function over its incoming
events.  An accepted connection allocates the next session id, spawns
the session and records the fresh termination sender and join handle
(both identified here by the session id) in the registries; an accept
error only logs; a `Close` notification is handled by `process_sys`; a
closed system channel breaks the loop; a termination request sends a
termination signal to every registered session in one pass over
`terminators`, then awaits every recorded handle in a second pass over
`handles`, then breaks — ignoring all later events. -/
def runtimeRun (st : ServerRuntime) : List RtEv → List RtAct
  | [] => []
  | ev :: rest =>
      match ev with
      | .accept =>
          let (id, st1) := st.genId
          .spawn id ::
            runtimeRun
              { st1 with
                  terminators := (id, id) :: st1.terminators,
                  handles := (id, id) :: st1.handles } rest
      | .acceptErr => runtimeRun st rest
      | .sysMsg none => [.ret]
      | .sysMsg (some m) =>
          let (st1, acts, _) := st.processSys m
          acts ++ runtimeRun st1 rest
      | .terminate =>
          (st.terminators.map fun p => RtAct.signal p.1 p.2) ++
            ((st.handles.map fun p => RtAct.awaitTask p.1 p.2) ++ [.ret])

/-- Does an action carry a termination signal? -/
def RtAct.isSignal : RtAct → Bool
  | .signal _ _ => true
  | _ => false

/-- Does an action await a session task handle? -/
def RtAct.isAwait : RtAct → Bool
  | .awaitTask _ _ => true
  | _ => false

/-- Does an action spawn a session (i.e. accept a connection)? -/
def RtAct.isSpawn : RtAct → Bool
  | .spawn _ => true
  | _ => false

theorem runtimeRun_terminate (st : ServerRuntime) (rest : List RtEv) :
    runtimeRun st (.terminate :: rest) =
      (st.terminators.map fun p => RtAct.signal p.1 p.2) ++
        ((st.handles.map fun p => RtAct.awaitTask p.1 p.2) ++ [.ret]) := rfl

theorem signal_index_lt {st : ServerRuntime} {rest : List RtEv} {i : Nat}
    {a : RtAct} (h : (runtimeRun st (.terminate :: rest))[i]? = some a)
    (hs : a.isSignal = true) :
    i < (st.terminators.map fun p => RtAct.signal p.1 p.2).length := by
  by_contra hge
  push_neg at hge
  rw [runtimeRun_terminate, List.getElem?_append_right hge] at h
  have hmem := List.getElem?_mem h
  rcases List.mem_append.1 hmem with hm | hm
  · obtain ⟨p, _, hp⟩ := List.mem_map.1 hm
    rw [← hp] at hs
    simp [RtAct.isAwait, RtAct.isSignal] at hs
  · rw [List.mem_singleton] at hm
    subst hm
    simp [RtAct.isSignal] at hs

theorem await_index_ge {st : ServerRuntime} {rest : List RtEv} {j : Nat}
    {b : RtAct} (h : (runtimeRun st (.terminate :: rest))[j]? = some b)
    (hb : b.isAwait = true) :
    (st.terminators.map fun p => RtAct.signal p.1 p.2).length ≤ j := by
  by_contra hlt
  push_neg at hlt
  rw [runtimeRun_terminate, List.getElem?_append_left hlt] at h
  have hmem := List.getElem?_mem h
  obtain ⟨p, _, hp⟩ := List.mem_map.1 hmem
  rw [← hp] at hb
  simp [RtAct.isAwait, RtAct.isSignal] at hb

/-- C4: on a termination request the runtime's trace is exactly one
complete signalling pass over the `terminators` registry followed by a
separate complete awaiting pass over the `handles` registry, and only
then the runtime task returns: every registered session receives a
signal, every recorded handle is awaited, every signal action precedes
every await action, the return is the final action, and no connection
is accepted (no session spawned) after the termination request no
matter what events follow it. -/
theorem claim_c4_shutdown (st : ServerRuntime) (rest : List RtEv) :
    runtimeRun st (.terminate :: rest) =
      (st.terminators.map fun p => RtAct.signal p.1 p.2) ++
        ((st.handles.map fun p => RtAct.awaitTask p.1 p.2) ++ [.ret]) ∧
    (∀ p ∈ st.terminators,
      RtAct.signal p.1 p.2 ∈ runtimeRun st (.terminate :: rest)) ∧
    (∀ p ∈ st.handles,
      RtAct.awaitTask p.1 p.2 ∈ runtimeRun st (.terminate :: rest)) ∧
    (∀ (i j : Nat) (a b : RtAct),
      (runtimeRun st (.terminate :: rest))[i]? = some a →
      (runtimeRun st (.terminate :: rest))[j]? = some b →
      a.isSignal = true → b.isAwait = true → i < j) ∧
    (runtimeRun st (.terminate :: rest)).getLast? = some .ret ∧
    (∀ a ∈ runtimeRun st (.terminate :: rest), a.isSpawn = false) := by
  refine ⟨rfl, ?_, ?_, ?_, ?_, ?_⟩
  · intro p hp
    rw [runtimeRun_terminate]
    exact List.mem_append_left _ (List.mem_map.2 ⟨p, hp, rfl⟩)
  · intro p hp
    rw [runtimeRun_terminate]
    exact List.mem_append_right _
      (List.mem_append_left _ (List.mem_map.2 ⟨p, hp, rfl⟩))
  · intro i j a b ha hb hsa hsb
    exact Nat.lt_of_lt_of_le (signal_index_lt ha hsa) (await_index_ge hb hsb)
  · rw [runtimeRun_terminate, List.getLast?_append, List.getLast?_append]
    simp
  · intro a ha
    rw [runtimeRun_terminate] at ha
    rcases List.mem_append.1 ha with hm | hm
    · obtain ⟨p, _, hp⟩ := List.mem_map.1 hm
      rw [← hp]; rfl
    · rcases List.mem_append.1 hm with hm | hm
      · obtain ⟨p, _, hp⟩ := List.mem_map.1 hm
        rw [← hp]; rfl
      · rw [List.mem_singleton] at hm; subst hm; rfl

/-- Witness for C4 at a concrete runtime state: one registered session
(id 3) and one later event; the session is signalled and awaited, the
signal precedes the await, and the trace ends with the return. -/
theorem claim_c4_shutdown_witness :
    RtAct.signal 3 3 ∈ runtimeRun ⟨[(3, 3)], [(3, 3)], 4⟩ [.terminate, .accept] ∧
      RtAct.awaitTask 3 3 ∈ runtimeRun ⟨[(3, 3)], [(3, 3)], 4⟩ [.terminate, .accept] ∧
      (0 : Nat) < 1 ∧
      (runtimeRun ⟨[(3, 3)], [(3, 3)], 4⟩ [.terminate, .accept]).getLast?
        = some .ret := by
  obtain ⟨-, h2, h3, h4, h5, -⟩ :=
    claim_c4_shutdown ⟨[(3, 3)], [(3, 3)], 4⟩ [.accept]
  exact ⟨h2 (3, 3) (by decide), h3 (3, 3) (by decide),
    h4 0 1 (.signal 3 3) (.awaitTask 3 3) (by decide) (by decide) rfl rfl, h5⟩

/-- C8: processing `Close(id)` removes exactly the entries for `id`
from both registries, awaits that session's recorded task handle (the
emitted actions are precisely the await of the removed handle, when one
was present), leaves every other session's entries and the id counter
unchanged, and returns `Ok(())`; when `id` is already absent from both
maps — e.g. a second `Close` for the same id, or a `Close` racing a
runtime-initiated termination that already consumed the maps — it is a
complete no-op that still returns `Ok(())` and never panics. -/
theorem claim_c8_close_frame (st : ServerRuntime) (id : Nat) :
    lookupKey id (st.processSys (.close id)).1.handles = none ∧
    lookupKey id (st.processSys (.close id)).1.terminators = none ∧
    (∀ k : Nat, k ≠ id →
      lookupKey k (st.processSys (.close id)).1.handles
        = lookupKey k st.handles) ∧
    (∀ k : Nat, k ≠ id →
      lookupKey k (st.processSys (.close id)).1.terminators
        = lookupKey k st.terminators) ∧
    (st.processSys (.close id)).1.nextId = st.nextId ∧
    (st.processSys (.close id)).2.1
      = (match lookupKey id st.handles with
          | some h => [RtAct.awaitTask id h]
          | none => []) ∧
    (st.processSys (.close id)).2.2 = .ok () ∧
    (lookupKey id st.handles = none → lookupKey id st.terminators = none →
      (st.processSys (.close id)).1 = st ∧ (st.processSys (.close id)).2.1 = []) := by
  refine ⟨lookupKey_eraseKey_self id st.handles,
    lookupKey_eraseKey_self id st.terminators,
    fun k hk => lookupKey_eraseKey_ne st.handles hk,
    fun k hk => lookupKey_eraseKey_ne st.terminators hk,
    rfl, rfl, rfl, ?_⟩
  intro hh ht
  constructor
  · show ({ st with
        handles := eraseKey id st.handles,
        terminators := eraseKey id st.terminators } : ServerRuntime) = st
    rw [eraseKey_of_lookupKey_none hh, eraseKey_of_lookupKey_none ht]
  · show (match lookupKey id st.handles with
      | some h => [RtAct.awaitTask id h]
      | none => []) = []
    rw [hh]

/-- Witness for C8: a registry holding sessions 1 and 2; closing
session 1 removes exactly its entries, awaits its handle, leaves
session 2 untouched, and a second close of the now-absent id 1 is a
no-op. -/
theorem claim_c8_close_frame_witness :
    lookupKey 1 (ServerRuntime.processSys ⟨[(1, 10), (2, 20)], [(1, 11), (2, 21)], 3⟩
        (.close 1)).1.handles = none ∧
    lookupKey 2 (ServerRuntime.processSys ⟨[(1, 10), (2, 20)], [(1, 11), (2, 21)], 3⟩
        (.close 1)).1.handles = some 21 ∧
    (ServerRuntime.processSys ⟨[(2, 20)], [(2, 21)], 3⟩ (.close 1)).1
        = ⟨[(2, 20)], [(2, 21)], 3⟩ := by
  obtain ⟨h1, -, h3, -, -, -, -, -⟩ :=
    claim_c8_close_frame ⟨[(1, 10), (2, 20)], [(1, 11), (2, 21)], 3⟩ 1
  obtain ⟨-, -, -, -, -, -, -, h8⟩ :=
    claim_c8_close_frame ⟨[(2, 20)], [(2, 21)], 3⟩ 1
  refine ⟨h1, ?_, (h8 (by decide) (by decide)).1⟩
  rw [h3 2 (by decide)]
  rfl

/-! ## The piosphere service (Service Dispatch)

`piosphere/src/lib.rs`: `PiosphereService::respond` expands the
`handle!` macro (`piosphere/src/socket/message.rs`) over the three
catalog entries — match on the envelope tag, `bincode::deserialize` the
body with the decoder of that tag's request type, run that request's
`Handler` impl, write the handler's response (the response type
declared for that tag).  Rows of the piosphere store carry `String`
(uuid) deployment ids; `Config.deployment_id` holds the uuid the insert
stored.  As for the piteria service, the filesystem and the config
parsers are out-of-scope collaborators carried as function fields, and
`uuid::Uuid::new_v4` of `Deployment::new` is carried as the `freshId`
field. -/

/-- Row of the piosphere `deployments` table
(`piosphere/src/db.rs::Deployment`). -/
structure ODbDeployment where
  id : RStr
  name : RStr
  description : RStr
  createdAt : Nat
deriving DecidableEq, Repr

/-- Row of the piosphere `nginx_configs` / `sysd_configs` tables
(`piosphere/src/db.rs::Config`). -/
structure ODbConfig where
  id : RStr
  deploymentId : RStr
  filePath : RStr
  createdAt : Nat
deriving DecidableEq, Repr

/-- The materialized `piosphere/src/deployment.rs::Deployment`. -/
structure ODeployment where
  id : RStr
  name : RStr
  description : RStr
  serviceCfg : SystemdConfigV
  nginxCfg : NginxConfigV
deriving DecidableEq, Repr

structure PiosphereDatabase where
  deployments : List ODbDeployment
  nginxConfigs : List ODbConfig
  sysdConfigs : List ODbConfig

structure PiosphereService where
  db : PiosphereDatabase
  fs : RStr → Option RStr
  parseNginx : RStr → Option NginxConfigV
  parseSysd : RStr → SystemdConfigV
  freshId : RStr

/-- `PiosphereDatabase::get_deployment`: `fetch_one` by `String` id,
then the two config rows by `deployment_id`. -/
def PiosphereDatabase.getDeployment (db : PiosphereDatabase) (id : RStr) :
    Except SqlxError (ODbDeployment × ODbConfig × ODbConfig) := do
  let dep ← match db.deployments.find? (fun d => d.id == id) with
    | none => .error .rowNotFound
    | some d => .ok d
  let ncfg ← match db.nginxConfigs.find? (fun c => c.deploymentId == dep.id) with
    | none => .error .rowNotFound
    | some c => .ok c
  let scfg ← match db.sysdConfigs.find? (fun c => c.deploymentId == dep.id) with
    | none => .error .rowNotFound
    | some c => .ok c
  .ok (dep, ncfg, scfg)

/-- `PiosphereService::view_deployment`: fetch the rows, read and parse
both config files, build `Deployment::new` (with a fresh uuid). -/
def PiosphereService.viewDeployment (svc : PiosphereService) (id : RStr) :
    Except PiosphereError ODeployment := do
  let (dep, ncfgRow, scfgRow) ←
    match svc.db.getDeployment id with
    | .error e => .error (.sqlx e)
    | .ok v => .ok v
  let nfile ← match svc.fs ncfgRow.filePath with
    | none => .error .io
    | some s => .ok s
  let ncfg ← match svc.parseNginx nfile with
    | none => .error .nginxParse
    | some c => .ok c
  let sfile ← match svc.fs scfgRow.filePath with
    | none => .error .io
    | some s => .ok s
  let scfg := svc.parseSysd sfile
  .ok ⟨svc.freshId, dep.name, dep.description, scfg, ncfg⟩

/-- The value written back by `PiosphereService::respond`, one variant
per catalog entry's declared response type (`Hello → Self`,
`Overview → Vec<db::Deployment>`, `ViewDeployment → Deployment`). -/
inductive PiosphereResponseV where
  | hello
  | overview (deps : List ODbDeployment)
  | viewDeployment (d : ODeployment)
deriving DecidableEq, Repr

/-- `PiosphereService::respond` via the `handle!` expansion: select the
body decoder and the handler by the received tag; unit request bodies
(`Hello`, `Overview`) deserialize from any bytes, the `ViewDeployment`
body is a bincode `String`; every `?` failure propagates out with
nothing written; the stream write is modelled as succeeding. -/
def PiosphereService.respond (svc : PiosphereService) (msg : PiosphereRequest) :
    Except PiosphereError PiosphereResponseV :=
  match msg.tag with
  | .Hello => .ok .hello
  | .Overview => .ok (.overview svc.db.deployments)
  | .ViewDeployment => do
      let id ← match parseBytesLp msg.message with
        | none => .error .bincode
        | some p => .ok p.1
      let d ← svc.viewDeployment id
      .ok (.viewDeployment d)

/-- Does a written response value inhabit the response type the catalog
declares for the tag? -/
def responseMatchesTag : PiosphereTag → PiosphereResponseV → Prop
  | .Hello, .hello => True
  | .Overview, .overview _ => True
  | .ViewDeployment, .viewDeployment _ => True
  | _, _ => False

/-- C7: encoding always derives the envelope tag from the concrete
request variant (`Message::to_request` uses `self.tag()`), and
dispatching the encoded request yields either a value of the response
type declared for that variant's tag or a defined failure — never a
response of a different tag's type. -/
theorem claim_c7_tag_consistency (svc : PiosphereService) (m : PiosphereMsg) :
    m.toRequest.tag = m.tag ∧
    (∀ r : PiosphereResponseV, svc.respond m.toRequest = .ok r →
      responseMatchesTag m.tag r) := by
  refine ⟨rfl, ?_⟩
  intro r hr
  cases m with
  | hello =>
      rw [PiosphereService.respond] at hr
      simp only [PiosphereMsg.toRequest, PiosphereMsg.tag] at hr ⊢
      cases hr
      trivial
  | overview =>
      rw [PiosphereService.respond] at hr
      simp only [PiosphereMsg.toRequest, PiosphereMsg.tag] at hr ⊢
      cases hr
      trivial
  | viewDeployment id =>
      rw [PiosphereService.respond] at hr
      simp only [PiosphereMsg.toRequest, PiosphereMsg.tag] at hr ⊢
      cases hpb : parseBytesLp (PiosphereMsg.serBody (.viewDeployment id)) with
      | none => simp [hpb, Bind.bind, Except.bind] at hr
      | some p =>
          cases hvd : svc.viewDeployment p.1 with
          | error e => simp [hpb, hvd, Bind.bind, Except.bind] at hr
          | ok d =>
              simp only [hpb, Bind.bind, Except.bind, hvd] at hr
              cases hr
              trivial

/-- A piosphere service over an empty store. -/
def emptyPiosphereService : PiosphereService where
  db := ⟨[], [], []⟩
  fs := fun _ => none
  parseNginx := fun _ => none
  parseSysd := fun s => s
  freshId := []

/-- Witness for C7: dispatching the encoded `Overview` request against
the empty store yields the `Overview` response type. -/
theorem claim_c7_tag_consistency_witness :
    responseMatchesTag PiosphereMsg.overview.tag (.overview []) :=
  (claim_c7_tag_consistency emptyPiosphereService .overview).2 (.overview []) rfl

/-! ## The transactional insert

`PiosphereDatabase::insert_deployment` (`piosphere/src/db.rs`): begin a
transaction, insert the deployment row, insert the nginx config-path
row, insert the sysd config-path row, commit; every `?` failure returns
from the function before `commit`, so the open transaction is dropped
and its uncommitted changes are discarded (sqlx rolls an uncommitted
transaction back on drop — the explicit `Err => rollback` arm is
unreachable because the `?`s inside the `match` scrutinee block already
propagate).  Transaction semantics are modelled by accumulating the
inserts in a working copy that is published to the store only by
`commit`.  Which step fails is the environment's choice, modelled by
the `TxEnv` failure flags. -/

/-- The piosphere store contents touched by `insert_deployment`. -/
structure Store where
  deployments : List ODbDeployment
  nginxConfigs : List ODbConfig
  sysdConfigs : List ODbConfig
deriving DecidableEq, Repr

/-- Failure injection for the five fallible database operations of
`insert_deployment`, in program order. -/
structure TxEnv where
  beginFail : Bool
  insertDepFail : Bool
  insertNginxFail : Bool
  insertSysdFail : Bool
  commitFail : Bool
deriving DecidableEq, Repr

/-- Input value: `piosphere/src/deployment.rs::Deployment` restricted
to the fields `insert_deployment` reads (`id`, `name`, `description`,
`nginx_cfg.file_location`, `service_cfg.file_location`), plus the row
timestamp the database assigns. -/
structure NewDeployment where
  id : RStr
  name : RStr
  description : RStr
  nginxFileLocation : RStr
  sysdFileLocation : RStr
  createdAt : Nat
deriving DecidableEq, Repr

/-- The deployment row the first insert returns (`RETURNING *`). -/
def NewDeployment.row (d : NewDeployment) : ODbDeployment :=
  ⟨d.id, d.name, d.description, d.createdAt⟩

/-- `PiosphereDatabase::insert_deployment`: returns the inserted
deployment row and the resulting store contents.  On any failure the
function exits before `commit`, so the store is left as it was. -/
def insertDeployment (env : TxEnv) (store : Store) (d : NewDeployment) :
    Except SqlxError ODbDeployment × Store :=
  if env.beginFail then (.error .rowNotFound, store)
  else
    -- the transaction's working copy
    if env.insertDepFail then (.error .rowNotFound, store)
    else
      let w1 : Store :=
        { store with deployments := store.deployments ++ [d.row] }
      if env.insertNginxFail then (.error .rowNotFound, store)
      else
        let w2 : Store :=
          { w1 with nginxConfigs :=
              w1.nginxConfigs ++ [⟨[], d.id, d.nginxFileLocation, d.createdAt⟩] }
        if env.insertSysdFail then (.error .rowNotFound, store)
        else
          let w3 : Store :=
            { w2 with sysdConfigs :=
                w2.sysdConfigs ++ [⟨[], d.id, d.sysdFileLocation, d.createdAt⟩] }
          if env.commitFail then (.error .rowNotFound, store)
          else (.ok d.row, w3)

/-- C10: `insert_deployment` is atomic — when it returns `Ok` the
deployment row and both config rows have all been committed (appended
to their tables, everything else unchanged), and on any failure (of
`begin`, any of the three inserts, or `commit`) it returns the error
with the store unchanged. -/
theorem claim_c10_insert_atomic (env : TxEnv) (store : Store)
    (d : NewDeployment) :
    (∀ row, (insertDeployment env store d).1 = .ok row →
      row = d.row ∧
      (insertDeployment env store d).2 =
        ⟨store.deployments ++ [d.row],
          store.nginxConfigs ++ [⟨[], d.id, d.nginxFileLocation, d.createdAt⟩],
          store.sysdConfigs ++ [⟨[], d.id, d.sysdFileLocation, d.createdAt⟩]⟩) ∧
    (∀ e, (insertDeployment env store d).1 = .error e →
      (insertDeployment env store d).2 = store) := by
  obtain ⟨b1, b2, b3, b4, b5⟩ := env
  constructor
  · intro row hrow
    cases b1 <;> cases b2 <;> cases b3 <;> cases b4 <;> cases b5 <;>
      simp_all [insertDeployment]
  · intro e he
    cases b1 <;> cases b2 <;> cases b3 <;> cases b4 <;> cases b5 <;>
      simp_all [insertDeployment]

/-- Witness for C10 at concrete inputs: with no failures the three rows
are appended to an empty store, and with a failing commit the store
stays empty. -/
theorem claim_c10_insert_atomic_witness :
    (insertDeployment ⟨false, false, false, false, false⟩ ⟨[], [], []⟩
        ⟨[1], [2], [3], [4], [5], 0⟩).2 =
      ⟨[⟨[1], [2], [3], 0⟩], [⟨[], [1], [4], 0⟩], [⟨[], [1], [5], 0⟩]⟩ ∧
    (insertDeployment ⟨false, false, false, false, true⟩ ⟨[], [], []⟩
        ⟨[1], [2], [3], [4], [5], 0⟩).2 = ⟨[], [], []⟩ :=
  ⟨((claim_c10_insert_atomic ⟨false, false, false, false, false⟩ ⟨[], [], []⟩
      ⟨[1], [2], [3], [4], [5], 0⟩).1 ⟨[1], [2], [3], 0⟩ rfl).2,
    (claim_c10_insert_atomic ⟨false, false, false, false, true⟩ ⟨[], [], []⟩
      ⟨[1], [2], [3], [4], [5], 0⟩).2 .rowNotFound rfl⟩
